import Mathlib

/-!
Verification of the artifact storage and retrieval subsystem of the
jamalpur-vf repository.

The development shallowly embeds the relevant JavaScript source:

* `backend/server/middleware/cloudinaryUpload.js` — `uploadToCloudinary`
  (base-config construction, the raw/image delivery-URL fix, and the
  staged-temp-file cleanup);
* the client-side `PDFHandler` class (`download`, `view`, `print`,
  `getFilename`, `_downloadFromUrl`, `_downloadFromServer`,
  `_downloadFromDataURL`, `_downloadBlob`).

Strings are modelled as `List Char` (`Str`).  JavaScript truthiness of
optional string fields is modelled by `truthy`; `String.prototype.replace`
with a string pattern (which replaces only the first occurrence) is
modelled by `replaceFirst`; `String.prototype.includes` by `containsSub`;
`String.prototype.trim` by `trimJs`.
-/

namespace JVF

/-- Strings of the embedded program. -/
abbrev Str := List Char

/-- Shorthand turning a Lean string literal into the model's string type. -/
def sl (x : String) : Str := x.toList

/-- JavaScript truthiness of an optional string field: present and non-empty. -/
def truthy (o : Option Str) : Bool :=
  match o with
  | none => false
  | some v => !v.isEmpty

/-- JavaScript `a || b` on two optional string values. -/
def jsOr (a b : Option Str) : Option Str :=
  if truthy a then a else b

/-- JavaScript `a || d` where `d` is a (truthy) string default. -/
def jsOrD (a : Option Str) (d : Str) : Str :=
  if truthy a then a.getD [] else d

/-- Template-literal interpolation of an optional value: `undefined` prints
as the string "undefined". -/
def jsStr (o : Option Str) : Str :=
  match o with
  | none => sl "undefined"
  | some v => v

/-- `pat` is an initial run of `l` (the semantics of `String.startsWith`). -/
def leadsOf : Str → Str → Bool
  | [], _ => true
  | _ :: _, [] => false
  | p :: ps, c :: cs => p == c && leadsOf ps cs

/-- `String.prototype.includes`: `pat` occurs somewhere in `l`. -/
def containsSub (pat : Str) : Str → Bool
  | [] => leadsOf pat []
  | c :: rest => leadsOf pat (c :: rest) || containsSub pat rest

/-- `String.prototype.replace` with a plain string pattern: replace only the
first occurrence of `pat` by `rep`. -/
def replaceFirst (pat rep : Str) : Str → Str
  | [] => if leadsOf pat [] then rep else []
  | c :: rest =>
    if leadsOf pat (c :: rest) then rep ++ (c :: rest).drop pat.length
    else c :: replaceFirst pat rep (rest)

/-- Number of positions of `l` at which `pat` occurs (overlapping positions
are all counted). -/
def occCount (pat l : Str) : Nat :=
  ((List.range (l.length + 1)).filter (fun i => leadsOf pat (l.drop i))).length

/-- The image-delivery URL path segment. -/
def imgSeg : Str := sl "/image/upload/"

/-- The raw-delivery URL path segment used for documents. -/
def rawSeg : Str := sl "/raw/upload/"

/-- Lowercasing a model string (`String.prototype.toLowerCase`, ASCII part). -/
def lowerStr (l : Str) : Str := l.map Char.toLower

/-- `pat` is a final run of `l` (the semantics of a `$`-anchored regex test). -/
def trailsOf (pat l : Str) : Bool := leadsOf pat.reverse l.reverse

/-- Whitespace removed by `String.prototype.trim` (the characters relevant
to this code base). -/
def isJsSpace (c : Char) : Bool :=
  c == ' ' || c == '\t' || c == '\n' || c == '\r' || c == '\x0b' || c == '\x0c' ||
    c == ' '

/-- `String.prototype.trim`: drop leading and trailing whitespace. -/
def trimJs (l : Str) : Str :=
  List.rdropWhile isJsSpace (List.dropWhile isJsSpace l)

/-- Characters removed by the handler's filename sanitization
(regex class in `_downloadBlob`, `_downloadFromDataURL`, `_downloadDirect`). -/
def isBadFileChar (c : Char) : Bool :=
  c == '<' || c == '>' || c == ':' || c == '"' || c == '/' || c == '\\' ||
    c == '|' || c == '?' || c == '*'

/-- Per-character action of `filename.replace(/[<>:"\/\\|?*]/g, '_')`. -/
def replChar (c : Char) : Char := if isBadFileChar c then '_' else c

/-- `filename.replace(/[<>:"\/\\|?*]/g, '_').trim() || 'document'`
(the sanitization of `PDFHandler._downloadBlob`). -/
def sanitizeName (l : Str) : Str :=
  if (trimJs (l.map replChar)).isEmpty then sl "document" else trimJs (l.map replChar)

/-- `filename.replace(/[<>:"\/\\|?*]/g, '_').trim() || 'document.pdf'`
(the sanitization of `PDFHandler._downloadFromDataURL`). -/
def sanitizeNameData (l : Str) : Str :=
  if (trimJs (l.map replChar)).isEmpty then sl "document.pdf" else trimJs (l.map replChar)

/-- ASCII letters and digits, the `[A-Za-z0-9]` regex class. -/
def isAsciiAlnum (c : Char) : Bool :=
  ('A' ≤ c && c ≤ 'Z') || ('a' ≤ c && c ≤ 'z') || ('0' ≤ c && c ≤ '9')

/-- The test `/\.[A-Za-z0-9]{2,6}$/.test(s)`: `s` ends in a dot followed by
two to six alphanumeric characters. -/
def hasExtRegex (l : Str) : Bool :=
  let r := l.reverse
  [2, 3, 4, 5, 6].any fun k =>
    (r.take k).length == k && (r.take k).all isAsciiAlnum && r.get? k == some '.'

/-- The duck-typed PDF artifact descriptor handled by `PDFHandler`
(all fields optional, mirroring the JavaScript object). -/
structure PdfFile where
  filename : Option Str := none
  fileId : Option Str := none
  url : Option Str := none
  publicId : Option Str := none
  originalName : Option Str := none
  name : Option Str := none
  data : Option Str := none
  mimetype : Option Str := none
  size : Option Nat := none

/-- `PDFHandler.getFilename`. -/
def getFilename (pf : Option PdfFile) : Str :=
  match pf with
  | none => sl "document"
  | some f =>
    let base := trimJs (jsOrD (jsOr (jsOr f.originalName f.name) f.filename) (sl "document"))
    if hasExtRegex base then base
    else
      let mime := lowerStr (jsOrD f.mimetype [])
      let ext :=
        if containsSub (sl "pdf") mime then sl ".pdf"
        else if containsSub (sl "jpeg") mime || containsSub (sl "jpg") mime then sl ".jpg"
        else if containsSub (sl "png") mime then sl ".png"
        else if containsSub (sl "gif") mime then sl ".gif"
        else if containsSub (sl "octet-stream") mime then []
        else []
      let full := base ++ ext
      if full.isEmpty then sl "document" else full

/-- The `expectPdf` flag of `_downloadFromUrl` / `_downloadFromServer`:
`/\.pdf$/i.test(filename) || (pdfFile.mimetype || "").toLowerCase().includes("pdf")`. -/
def expectPdfOf (f : PdfFile) : Bool :=
  trailsOf (sl ".pdf") (lowerStr (getFilename (some f))) ||
    containsSub (sl "pdf") (lowerStr (jsOrD f.mimetype []))

/-- An HTTP response observed by one `fetch` call: status, `content-type`
header, and body bytes. -/
structure HttpResponse where
  status : Nat
  contentType : Option Str
  body : List Nat

/-- `Response.ok`: status in the inclusive range 200–299. -/
def respOk (r : HttpResponse) : Bool := 200 ≤ r.status && r.status ≤ 299

/-- An in-memory binary payload with its reported MIME type
(`Blob` in the browser host). -/
structure Blob where
  data : List Nat
  type : Str

/-- `response.blob()`: the body bytes typed by the `content-type` header
(empty type when the header is absent). -/
def blobOfResponse (r : HttpResponse) : Blob :=
  { data := r.body, type := r.contentType.getD [] }

/-- The single GET request a download path issues. -/
structure FetchRequest where
  url : Str
  method : Str
  credentials : Str
  mode : Option Str := none
  cache : Option Str := none
  accept : Option Str := none

/-- One invocation of `_downloadBlob`: an object URL bound to a blob and a
final filename (the transient delivery handle). -/
structure Delivery where
  blob : Blob
  filename : Str

/-- Failure causes of the read path. -/
inductive DlErr where
  | network
  | httpError (status : Nat)
  | emptyBody
  | emptyBlob
  | invalidDescriptor
deriving DecidableEq

/-- Observable outcome of one public `PDFHandler` call: the boolean returned
to the caller, the failure cause caught (if any), the GET requests issued,
the `_downloadBlob` deliveries performed, the data-URL anchor saves, and
whether the non-fatal signature warning fired. -/
structure DlOutcome where
  ret : Bool
  err : Option DlErr := none
  requests : List FetchRequest := []
  delivered : List Delivery := []
  linkSaves : List Str := []
  warned : Bool := false

/-- `%PDF` as leading bytes of the fetched content. -/
def pdfMagic (body : List Nat) : Bool :=
  match body with
  | b0 :: b1 :: b2 :: b3 :: _ => b0 == 37 && b1 == 80 && b2 == 68 && b3 == 70
  | _ => false

/-- The MIME reconciliation of `_downloadFromUrl` / `_downloadFromServer`:
rebuild the blob as `application/pdf` unless its reported type already is
`application/pdf`, is `application/octet-stream`, or is empty. -/
def normalizeBlob (expectPdf : Bool) (blob : Blob) : Blob :=
  if expectPdf &&
      !(blob.type == sl "application/pdf" || blob.type == sl "application/octet-stream" ||
        blob.type.isEmpty) then
    { blob with type := sl "application/pdf" }
  else blob

/-- Extension inference from a blob type in `_downloadBlob`. -/
def extFromType (t : Str) : Str :=
  let low := lowerStr t
  if containsSub (sl "pdf") low then sl ".pdf"
  else if containsSub (sl "jpeg") low || containsSub (sl "jpg") low then sl ".jpg"
  else if containsSub (sl "png") low then sl ".png"
  else if containsSub (sl "gif") low then sl ".gif"
  else []

/-- `PDFHandler._downloadBlob`: sanitize the name, infer a missing
extension, reject an empty blob, otherwise create the transient delivery
handle. -/
def downloadBlob (blob : Blob) (filename : Str) : Except DlErr Delivery :=
  let sanitized := sanitizeName filename
  let finalFilename :=
    if hasExtRegex sanitized then sanitized else sanitized ++ extFromType blob.type
  if blob.data.isEmpty then .error .emptyBlob
  else .ok { blob := blob, filename := finalFilename }

/-- Literal host part matched by the cloud-name regex. -/
def rccHost : Str := sl "res.cloudinary.com/"

/-- `fetchUrl.match(/res\.cloudinary\.com\/([^/]+)/)?.[1]`: first position
where the host literal is followed by at least one non-slash character. -/
def matchCloud : Str → Option Str
  | [] => none
  | c :: rest =>
    if leadsOf rccHost (c :: rest) then
      let nm := ((c :: rest).drop rccHost.length).takeWhile (fun ch => ch != '/')
      if nm.isEmpty then matchCloud rest else some nm
    else matchCloud rest

/-- `publicId.replace(/\.(pdf|jpg|jpeg|png|gif)$/i, '')`. -/
def stripExtSuffix (l : Str) : Str :=
  let low := lowerStr l
  if trailsOf (sl ".pdf") low then l.take (l.length - 4)
  else if trailsOf (sl ".jpg") low then l.take (l.length - 4)
  else if trailsOf (sl ".jpeg") low then l.take (l.length - 5)
  else if trailsOf (sl ".png") low then l.take (l.length - 4)
  else if trailsOf (sl ".gif") low then l.take (l.length - 4)
  else l

/-- The fetch-URL preparation of `_downloadFromUrl` (image→raw segment
conversion, publicId-based reconstruction, attachment hint). -/
def buildFetchUrl (f : PdfFile) : Str :=
  let u0 := f.url.getD []
  if containsSub (sl "res.cloudinary.com") u0 then
    let u1 := if containsSub imgSeg u0 then replaceFirst imgSeg rawSeg u0 else u0
    let u2 :=
      if truthy f.publicId && !(containsSub rawSeg u1) then
        match matchCloud u1 with
        | some cn =>
          sl "https://res.cloudinary.com/" ++ cn ++ rawSeg ++
            stripExtSuffix (f.publicId.getD [])
        | none => u1
      else u1
    if containsSub (sl "fl_attachment") u2 then u2
    else u2 ++ [(if containsSub (sl "?") u2 then '&' else '?')] ++ sl "fl_attachment"
  else u0

/-- The request issued by `_downloadFromUrl`. -/
def urlFetchRequest (f : PdfFile) : FetchRequest :=
  { url := buildFetchUrl f, method := sl "GET", credentials := sl "omit",
    mode := some (sl "cors"), cache := some (sl "no-cache"),
    accept := some (sl "application/pdf, application/octet-stream, */*") }

/-- Fallback base URL for the legacy file-serving API. -/
def apiFallback : Str := sl "https://jamalpur-chamber-backend-b61d.onrender.com/api"

/-- `process.env.REACT_APP_API_URL || <fallback>`. -/
def apiBaseEff (apiBase : Option Str) : Str := jsOrD apiBase apiFallback

/-- The legacy retrieval URL `<base>/files/${pdfFile.filename || pdfFile.fileId}`
built by `_downloadFromServer`, `view` and `print`. -/
def serverUrlOf (apiBase : Option Str) (f : PdfFile) : Str :=
  apiBaseEff apiBase ++ sl "/files/" ++ jsStr (jsOr f.filename f.fileId)

/-- The request issued by `_downloadFromServer`. -/
def serverFetchRequest (apiBase : Option Str) (f : PdfFile) : FetchRequest :=
  { url := serverUrlOf apiBase f, method := sl "GET", credentials := sl "omit",
    cache := some (sl "no-cache") }

/-- `PDFHandler._downloadFromUrl`, as a function of the single fetch
outcome (`Except.error` models a rejected fetch). -/
def downloadFromUrl (f : PdfFile) (resp : Except Unit HttpResponse) : DlOutcome :=
  let filename := getFilename (some f)
  let expect := expectPdfOf f
  let req := urlFetchRequest f
  match resp with
  | .error _ => { ret := false, err := some .network, requests := [req] }
  | .ok r =>
    if !(respOk r) then { ret := false, err := some (.httpError r.status), requests := [req] }
    else
      let blob := blobOfResponse r
      if blob.data.isEmpty then { ret := false, err := some .emptyBody, requests := [req] }
      else
        let warned := expect && !(pdfMagic blob.data)
        let finalBlob := normalizeBlob expect blob
        match downloadBlob finalBlob filename with
        | .ok d => { ret := true, requests := [req], delivered := [d], warned := warned }
        | .error e => { ret := false, err := some e, requests := [req], warned := warned }

/-- `PDFHandler._downloadFromServer`. -/
def downloadFromServer (apiBase : Option Str) (f : PdfFile)
    (resp : Except Unit HttpResponse) : DlOutcome :=
  let filename := getFilename (some f)
  let expect := expectPdfOf f
  let req := serverFetchRequest apiBase f
  match resp with
  | .error _ => { ret := false, err := some .network, requests := [req] }
  | .ok r =>
    if !(respOk r) then { ret := false, err := some (.httpError r.status), requests := [req] }
    else
      let blob := blobOfResponse r
      if blob.data.isEmpty then { ret := false, err := some .emptyBody, requests := [req] }
      else
        let warned := expect && !(pdfMagic blob.data)
        let finalBlob := normalizeBlob expect blob
        match downloadBlob finalBlob filename with
        | .ok d => { ret := true, requests := [req], delivered := [d], warned := warned }
        | .error e => { ret := false, err := some e, requests := [req], warned := warned }

/-- `PDFHandler._downloadFromDataURL`: no network, anchor bound directly to
the data URI. -/
def downloadFromDataURL (f : PdfFile) : DlOutcome :=
  let filename := getFilename (some f)
  let sanitized := sanitizeNameData filename
  let finalFilename :=
    if trailsOf (sl ".pdf") (lowerStr sanitized) then sanitized else sanitized ++ sl ".pdf"
  { ret := true, linkSaves := [finalFilename] }

/-- `PDFHandler.download`: strategy dispatch over the descriptor fields. -/
def download (f : Option PdfFile) (apiBase : Option Str)
    (resp : Except Unit HttpResponse) : DlOutcome :=
  match f with
  | none => { ret := false }
  | some pf =>
    if truthy pf.url then downloadFromUrl pf resp
    else if truthy pf.filename || truthy pf.fileId then downloadFromServer apiBase pf resp
    else if truthy pf.data then downloadFromDataURL pf
    else { ret := false, err := some .invalidDescriptor }

/-- `PDFHandler.view`: returns the boolean result and the URL opened (if
any); `openThrows` models `window.open` raising. -/
def view (f : Option PdfFile) (apiBase : Option Str) (openThrows : Bool) :
    Bool × Option Str :=
  match f with
  | none => (false, none)
  | some pf =>
    if truthy pf.url then
      if openThrows then (false, none) else (true, some (pf.url.getD []))
    else if truthy pf.filename || truthy pf.fileId then
      if openThrows then (false, none) else (true, some (serverUrlOf apiBase pf))
    else if truthy pf.data then
      if openThrows then (false, none) else (true, some (pf.data.getD []))
    else (false, none)

/-- `PDFHandler.print`: `openedWindow` models whether `window.open` returned
a window object. -/
def print (f : Option PdfFile) (apiBase : Option Str)
    (openThrows openedWindow : Bool) : Bool :=
  match f with
  | none => false
  | some pf =>
    let urlq : Option Str :=
      if truthy pf.url then some (pf.url.getD [])
      else if truthy pf.filename || truthy pf.fileId then some (serverUrlOf apiBase pf)
      else if truthy pf.data then some (pf.data.getD [])
      else none
    match urlq with
    | none => false
    | some _ => if openThrows then false else if openedWindow then true else false

/-- A descriptor with none of the recognized retrieval fields populated. -/
def noFields (pf : PdfFile) : Bool :=
  !(truthy pf.url || truthy pf.filename || truthy pf.fileId || truthy pf.data)

/-- Options accepted by `uploadToCloudinary` (the keys the call sites use). -/
structure UploadOptions where
  folder : Option Str := none
  resource_type : Option Str := none
  quality : Option Str := none
  fetch_format : Option Str := none

/-- The configuration object passed to the store's upload call. -/
structure UploadConfig where
  folder : Str
  resource_type : Str
  type : Str
  access_mode : Str
  quality : Option Str
  fetch_format : Option Str

/-- Lines 148–161 of `cloudinaryUpload.js`: defaults, caller options spread
over them, then image-only options attached unless `resource_type` is
`'raw'`. -/
def buildBaseConfig (options : UploadOptions) : UploadConfig :=
  let merged : UploadConfig :=
    { folder := options.folder.getD (sl "jamalpur-chamber"),
      resource_type := options.resource_type.getD (sl "auto"),
      type := sl "upload",
      access_mode := sl "public",
      quality := options.quality,
      fetch_format := options.fetch_format }
  if merged.resource_type ≠ sl "raw" then
    { merged with quality := some (sl "auto"), fetch_format := some (sl "auto") }
  else merged

/-- The relevant fields of the store's upload response. -/
structure StoreResult where
  resource_type : Str
  secure_url : Str
  public_id : Str
  bytes : Nat

/-- Errors surfaced by the upload helper. -/
inductive UploadErr where
  | store (msg : Str)
  | unlinkFailure

/-- Lines 192–200 of `cloudinaryUpload.js`: when the upload was requested
or reported as raw, rewrite an image-delivery `secure_url` to the raw
segment (first occurrence only, as `String.prototype.replace` does). -/
def fixRawUrl (optsResourceType : Option Str) (r : StoreResult) : StoreResult :=
  if optsResourceType == some (sl "raw") || r.resource_type == sl "raw" then
    if !r.secure_url.isEmpty && containsSub imgSeg r.secure_url then
      { r with secure_url := replaceFirst imgSeg rawSeg r.secure_url }
    else r
  else r

/-- `uploadToCloudinary`, as a function of the staged file's existence and
the store call outcome.  Returns the propagated result or error together
with whether the staged file still exists afterwards.  On the success path
the temp file is unlinked before returning; if it was already gone,
`fs.unlinkSync` raises and the catch block (whose existence check then
fails) rethrows.  On store failure the catch block removes the file and
rethrows the store error. -/
def uploadToCloudinary (opts : UploadOptions) (fileExists : Bool)
    (store : Except Str StoreResult) : Except UploadErr StoreResult × Bool :=
  match store with
  | .error e => (.error (.store e), false)
  | .ok result =>
    let fixed := fixRawUrl opts.resource_type result
    if fileExists then (.ok fixed, false) else (.error .unlinkFailure, false)

/-- The options of the notice-controller and form-controller PDF uploads:
`uploadToCloudinary(req.file.path)` with no options object. -/
def noticeUploadOptions : UploadOptions := {}

/-- The options of the gallery-controller image upload. -/
def galleryUploadOptions : UploadOptions :=
  { folder := some (sl "jamalpur-chamber/gallery"),
    resource_type := some (sl "image"),
    quality := some (sl "auto"),
    fetch_format := some (sl "auto") }

/-- The spec's storage resource types. -/
inductive ResourceType where
  | document
  | image
  | auto
deriving DecidableEq

/-- Second definition, following the spec's words (ResourceTypeClassifier):
documents (e.g. `application/pdf`) map to `Document`, common image MIME
types to `Image`, anything else to best-effort auto-detection.  Stated for
comparison with the upload configuration the code actually builds. -/
def specResourceTypeClassifier (mime : Str) : ResourceType :=
  if mime == sl "application/pdf" then .document
  else if mime == sl "image/jpeg" || mime == sl "image/jpg" ||
      mime == sl "image/png" || mime == sl "image/gif" then .image
  else .auto

/-- Options requesting a raw (document) upload. -/
def rawUploadOptions : UploadOptions := { resource_type := some (sl "raw") }

/-- A store response whose delivery URL contains the image segment once. -/
def storeRespSingleImg : StoreResult :=
  { resource_type := sl "image", secure_url := sl "a/image/upload/b.pdf",
    public_id := sl "p", bytes := 3 }

/-- A store response whose delivery URL contains the image segment at two
(overlapping) positions. -/
def storeRespDoubleImg : StoreResult :=
  { resource_type := sl "image", secure_url := sl "x/image/upload/image/upload/y.pdf",
    public_id := sl "p", bytes := 3 }

/-- The scenario descriptor `{fileName: "old.pdf", fileId: "123"}`. -/
def legacyBothFile : PdfFile :=
  { filename := some (sl "old.pdf"), fileId := some (sl "123") }

/-- A remote descriptor that also retains stale legacy fields. -/
def remoteLegacyFile : PdfFile :=
  { url := some (sl "https://x/raw/upload/f.pdf"), filename := some (sl "stale.pdf"),
    fileId := some (sl "42") }

/-- An inline (data URI) descriptor. -/
def inlineFile : PdfFile := { data := some (sl "data:application/pdf;base64,AAAA") }

/-- A descriptor with none of the recognized fields. -/
def emptyFile : PdfFile := {}

/-- A document descriptor (PDF name and MIME type). -/
def docFile : PdfFile :=
  { url := some (sl "u"), originalName := some (sl "f.pdf"),
    mimetype := some (sl "application/pdf") }

/-- A successful response reporting the generic placeholder content type. -/
def octetResp : HttpResponse :=
  { status := 200, contentType := some (sl "application/octet-stream"),
    body := [1, 2, 3, 4, 5] }

/-- A 404 response. -/
def notFoundResp : HttpResponse := { status := 404, contentType := none, body := [] }

/-- A successful response with a zero-length body. -/
def emptyBodyResp : HttpResponse :=
  { status := 200, contentType := some (sl "application/pdf"), body := [] }

theorem leads_iff (pat l : Str) : leadsOf pat l = true ↔ ∃ t, l = pat ++ t := by
  induction pat generalizing l with
  | nil => simp [leadsOf]
  | cons p ps ih =>
    cases l with
    | nil =>
      simp only [leadsOf]
      constructor
      · intro h; cases h
      · rintro ⟨t, ht⟩; cases ht
    | cons c cs =>
      simp only [leadsOf, Bool.and_eq_true, beq_iff_eq, ih]
      constructor
      · rintro ⟨rfl, t, rfl⟩; exact ⟨t, rfl⟩
      · rintro ⟨t, ht⟩
        injection ht with h1 h2
        exact ⟨h1.symm, t, h2⟩

theorem leads_refl (pat : Str) : leadsOf pat pat = true :=
  (leads_iff pat pat).mpr ⟨[], (List.append_nil pat).symm⟩

theorem leads_nil_iff (pat : Str) : leadsOf pat [] = true ↔ pat = [] := by
  rw [leads_iff]
  constructor
  · rintro ⟨t, ht⟩
    exact (List.append_eq_nil.mp ht.symm).1
  · rintro rfl; exact ⟨[], rfl⟩

theorem leads_append_left (pat x y : Str) (h : leadsOf pat x = true) :
    leadsOf pat (x ++ y) = true := by
  obtain ⟨t, rfl⟩ := (leads_iff pat x).mp h
  exact (leads_iff _ _).mpr ⟨t ++ y, by simp⟩

theorem leads_length_le (pat l : Str) (h : leadsOf pat l = true) :
    pat.length ≤ l.length := by
  obtain ⟨t, rfl⟩ := (leads_iff pat l).mp h
  simp

theorem leads_eq_take (x y : Str) (h : leadsOf x y = true) :
    x = y.take x.length := by
  obtain ⟨t, rfl⟩ := (leads_iff x y).mp h
  rw [List.take_left]

theorem leads_of_take (l : Str) (n : Nat) : leadsOf (l.take n) l = true :=
  (leads_iff _ _).mpr ⟨l.drop n, (List.take_append_drop n l).symm⟩

theorem leads_split (pat x y : Str) (h : leadsOf pat (x ++ y) = true)
    (hlen : x.length ≤ pat.length) :
    leadsOf x pat = true ∧ leadsOf (pat.drop x.length) y = true := by
  obtain ⟨t, ht⟩ := (leads_iff pat (x ++ y)).mp h
  constructor
  · have hx : x = pat.take x.length := by
      have := congrArg (List.take x.length) ht
      rwa [List.take_left, List.take_append_of_le_length hlen] at this
    rw [hx]; exact leads_of_take pat x.length
  · have hy : y = pat.drop x.length ++ t := by
      have := congrArg (List.drop x.length) ht
      rwa [List.drop_left, List.drop_append_of_le_length hlen] at this
    exact (leads_iff _ _).mpr ⟨t, hy⟩

theorem leads_trunc (pat x y : Str) (h : leadsOf pat (x ++ y) = true)
    (hlen : pat.length ≤ x.length) : leadsOf pat x = true := by
  obtain ⟨t, ht⟩ := (leads_iff pat (x ++ y)).mp h
  have hx : x.take pat.length = pat := by
    have := congrArg (List.take pat.length) ht
    rwa [List.take_append_of_le_length hlen, List.take_left] at this
  have hsplit := List.take_append_drop pat.length x
  rw [hx] at hsplit
  exact (leads_iff _ _).mpr ⟨x.drop pat.length, hsplit.symm⟩

theorem contains_iff (pat l : Str) :
    containsSub pat l = true ↔ ∃ i, leadsOf pat (l.drop i) = true := by
  induction l with
  | nil =>
    simp only [containsSub, List.drop_nil]
    exact ⟨fun h => ⟨0, h⟩, fun ⟨_, h⟩ => h⟩
  | cons c rest ih =>
    simp only [containsSub, Bool.or_eq_true, ih]
    constructor
    · rintro (h | ⟨i, hi⟩)
      · exact ⟨0, h⟩
      · exact ⟨i + 1, hi⟩
    · rintro ⟨i, hi⟩
      cases i with
      | zero => exact Or.inl hi
      | succ j => exact Or.inr ⟨j, hi⟩

theorem replaceFirst_of_not_contains (pat rep l : Str)
    (hc : containsSub pat l = false) : replaceFirst pat rep l = l := by
  induction l with
  | nil =>
    simp only [containsSub] at hc
    simp [replaceFirst, hc]
  | cons c rest ih =>
    simp only [containsSub, Bool.or_eq_false_iff] at hc
    simp [replaceFirst, hc.1, ih hc.2]

theorem replaceFirst_decomp (pat rep l : Str) (hne : pat ≠ [])
    (hc : containsSub pat l = true) :
    ∃ a b, l = a ++ pat ++ b ∧ replaceFirst pat rep l = a ++ rep ++ b ∧
      ∀ i, i < a.length → leadsOf pat (l.drop i) = false := by
  induction l with
  | nil =>
    simp only [containsSub] at hc
    exact absurd ((leads_nil_iff pat).mp hc) hne
  | cons c rest ih =>
    by_cases hp : leadsOf pat (c :: rest) = true
    · obtain ⟨t, ht⟩ := (leads_iff _ _).mp hp
      refine ⟨[], (c :: rest).drop pat.length, ?_, ?_, ?_⟩
      · simp only [List.nil_append]
        rw [ht, List.drop_left]
      · simp [replaceFirst, hp]
      · intro i hi; cases hi
    · have hc' : containsSub pat rest = true := by
        simp only [containsSub, Bool.or_eq_true] at hc
        exact hc.resolve_left hp
      obtain ⟨a, b, h1, h2, h3⟩ := ih hc'
      refine ⟨c :: a, b, by simp [h1], ?_, ?_⟩
      · simp only [replaceFirst, hp, if_false]
        simp [h2]
      · intro i hi
        cases i with
        | zero => simpa using Bool.eq_false_iff.mpr hp
        | succ j =>
          simp only [List.length_cons, Nat.succ_lt_succ_iff] at hi
          simpa using h3 j hi

theorem occ_le_length (pat l : Str) (i : Nat) (hne : pat ≠ [])
    (h : leadsOf pat (l.drop i) = true) : i ≤ l.length := by
  by_contra hgt
  have hnil : l.drop i = [] := List.drop_eq_nil_of_le (Nat.le_of_lt (Nat.lt_of_not_le hgt))
  rw [hnil] at h
  exact hne ((leads_nil_iff pat).mp h)

theorem two_mem_le_length {α : Type} (xs : List α) (a b : α)
    (ha : a ∈ xs) (hb : b ∈ xs) (hab : a ≠ b) : 2 ≤ xs.length := by
  induction xs with
  | nil => cases ha
  | cons x rest ih =>
    rcases List.mem_cons.mp ha with rfl | ha'
    · rcases List.mem_cons.mp hb with rfl | hb'
      · exact absurd rfl hab
      · have : 0 < rest.length := List.length_pos.mpr (List.ne_nil_of_mem hb')
        simpa [List.length_cons] using Nat.succ_le_succ this
    · rcases List.mem_cons.mp hb with rfl | hb'
      · have : 0 < rest.length := List.length_pos.mpr (List.ne_nil_of_mem ha')
        simpa [List.length_cons] using Nat.succ_le_succ this
      · exact Nat.le_succ_of_le (ih ha' hb')

theorem occ_unique (pat l : Str) (i j : Nat) (hne : pat ≠ [])
    (hcount : occCount pat l ≤ 1)
    (hi : leadsOf pat (l.drop i) = true) (hj : leadsOf pat (l.drop j) = true) :
    i = j := by
  by_contra hij
  have hi' : i ∈ (List.range (l.length + 1)).filter (fun k => leadsOf pat (l.drop k)) := by
    refine List.mem_filter.mpr ⟨List.mem_range.mpr ?_, by simpa using hi⟩
    exact Nat.lt_succ_of_le (occ_le_length pat l i hne hi)
  have hj' : j ∈ (List.range (l.length + 1)).filter (fun k => leadsOf pat (l.drop k)) := by
    refine List.mem_filter.mpr ⟨List.mem_range.mpr ?_, by simpa using hj⟩
    exact Nat.lt_succ_of_le (occ_le_length pat l j hne hj)
  have h2 := two_mem_le_length _ i j hi' hj' hij
  have : 2 ≤ occCount pat l := h2
  omega

theorem replaceFirst_img_no_contains (l : Str) (h : occCount imgSeg l ≤ 1) :
    containsSub imgSeg (replaceFirst imgSeg rawSeg l) = false := by
  by_cases hc : containsSub imgSeg l = true
  · obtain ⟨a, b, hl, hrep, -⟩ := replaceFirst_decomp imgSeg rawSeg l (by decide) hc
    rw [hrep]
    have hlen_img : imgSeg.length = 14 := rfl
    have hlen_raw : rawSeg.length = 12 := rfl
    have hocc_n : leadsOf imgSeg (l.drop a.length) = true := by
      rw [hl, List.append_assoc, List.drop_left]
      exact leads_append_left _ _ _ (leads_refl _)
    have huniq : ∀ i, leadsOf imgSeg (l.drop i) = true → i = a.length :=
      fun i hi => occ_unique imgSeg l i a.length (by decide) h hi hocc_n
    by_contra hcon
    have hcon' : containsSub imgSeg (a ++ rawSeg ++ b) = true := by
      simpa using hcon
    obtain ⟨k, hk⟩ := (contains_iff _ _).mp hcon'
    rcases Nat.lt_or_ge k a.length with hk1 | hk1
    · have hdropR : (a ++ rawSeg ++ b).drop k = a.drop k ++ (rawSeg ++ b) := by
        rw [List.append_assoc, List.drop_append_of_le_length (Nat.le_of_lt hk1)]
      rw [hdropR] at hk
      have hmlen : (a.drop k).length = a.length - k := by simp
      rcases Nat.lt_or_ge (a.length - k) 14 with hm | hm
      · have hm1 : 1 ≤ a.length - k := by omega
        obtain ⟨h1, h2⟩ :=
          leads_split imgSeg (a.drop k) (rawSeg ++ b) hk (by rw [hmlen, hlen_img]; omega)
        rw [hmlen] at h2
        rcases eq_or_lt_of_le hm1 with hm_eq | hm_ge2
        · rw [← hm_eq] at h2
          have hsp2 := leads_split (imgSeg.drop 1) rawSeg b h2 (by decide)
          exact absurd hsp2.1 (by decide)
        · have htr : leadsOf (imgSeg.drop (a.length - k)) rawSeg = true := by
            apply leads_trunc _ _ _ h2
            simp only [List.length_drop, hlen_img, hlen_raw]
            omega
          have hm13 : a.length - k = 13 := by
            have hD2 : ∀ m, m < 14 → 2 ≤ m →
                leadsOf (imgSeg.drop m) rawSeg = true → m = 13 := by decide
            exact hD2 _ hm (by omega) htr
          have hadk : a.drop k = imgSeg.take 13 := by
            have := leads_eq_take _ _ h1
            rwa [hmlen, hm13] at this
          have hlk : leadsOf imgSeg (l.drop k) = true := by
            rw [hl, List.append_assoc, List.drop_append_of_le_length (Nat.le_of_lt hk1),
              hadk, ← List.append_assoc]
            exact leads_append_left _ _ _ (by decide)
          have := huniq k hlk
          omega
      · have hin : leadsOf imgSeg (a.drop k) = true := by
          apply leads_trunc _ _ _ hk
          rw [hmlen, hlen_img]; omega
        have hlk : leadsOf imgSeg (l.drop k) = true := by
          rw [hl, List.append_assoc, List.drop_append_of_le_length (Nat.le_of_lt hk1)]
          exact leads_append_left _ _ _ hin
        have := huniq k hlk
        omega
    · have hdropR : (a ++ rawSeg ++ b).drop k = (rawSeg ++ b).drop (k - a.length) := by
        rw [List.append_assoc]
        have hkeq : k = a.length + (k - a.length) := by omega
        conv_lhs => rw [hkeq]
        rw [← List.drop_drop, List.drop_left]
      rw [hdropR] at hk
      rcases Nat.lt_or_ge (k - a.length) 12 with hj | hj
      · have hdrop2 : (rawSeg ++ b).drop (k - a.length) = rawSeg.drop (k - a.length) ++ b :=
          List.drop_append_of_le_length (by rw [hlen_raw]; omega)
        rw [hdrop2] at hk
        obtain ⟨h1, h2⟩ := leads_split imgSeg (rawSeg.drop (k - a.length)) b hk
          (by simp only [List.length_drop, hlen_raw, hlen_img]; omega)
        have hj11 : k - a.length = 11 := by
          have hD4 : ∀ j, j < 12 → leadsOf (rawSeg.drop j) imgSeg = true → j = 11 := by
            decide
          exact hD4 _ hj h1
        have h2' : leadsOf (imgSeg.drop 1) b = true := by
          have hlen1 : (rawSeg.drop (k - a.length)).length = 1 := by rw [hj11]; rfl
          rwa [hlen1] at h2
        obtain ⟨t, ht⟩ := (leads_iff _ _).mp h2'
        have hlk : leadsOf imgSeg (l.drop (a.length + 13)) = true := by
          rw [hl, List.append_assoc]
          have hstep : (a ++ (imgSeg ++ b)).drop (a.length + 13) = (imgSeg ++ b).drop 13 := by
            rw [← List.drop_drop, List.drop_left]
          rw [hstep, List.drop_append_of_le_length (by rw [hlen_img]; omega), ht,
            ← List.append_assoc]
          exact leads_append_left _ _ _ (by decide)
        have := huniq _ hlk
        omega
      · have hdrop2 : (rawSeg ++ b).drop (k - a.length) = b.drop (k - a.length - 12) := by
          have hkeq : k - a.length = 12 + (k - a.length - 12) := by omega
          conv_lhs => rw [hkeq]
          rw [← List.drop_drop, List.drop_left' hlen_raw]
        rw [hdrop2] at hk
        have hlk : leadsOf imgSeg (l.drop (a.length + 14 + (k - a.length - 12))) = true := by
          rw [hl, List.append_assoc]
          have hstep : (a ++ (imgSeg ++ b)).drop (a.length + 14 + (k - a.length - 12)) =
              b.drop (k - a.length - 12) := by
            rw [Nat.add_assoc, ← List.drop_drop, List.drop_left, ← List.drop_drop,
              List.drop_left' hlen_img]
          rw [hstep]
          exact hk
        have := huniq _ hlk
        omega
  · have hc' : containsSub imgSeg l = false := by simpa using hc
    rw [replaceFirst_of_not_contains _ _ _ hc']
    exact hc'

theorem replChar_not_bad (c : Char) : isBadFileChar (replChar c) = false := by
  simp only [replChar]
  split
  · decide
  · next h => exact Bool.eq_false_iff.mpr h

theorem map_replChar_fix (l : Str) (h : ∀ c ∈ l, isBadFileChar c = false) :
    l.map replChar = l := by
  induction l with
  | nil => rfl
  | cons c rest ih =>
    simp only [List.map_cons]
    have hc : replChar c = c := by
      simp [replChar, h c (List.mem_cons_self c rest)]
    rw [hc, ih (fun d hd => h d (List.mem_cons_of_mem c hd))]

theorem mem_map_replChar_not_bad (l : Str) (c : Char) (h : c ∈ l.map replChar) :
    isBadFileChar c = false := by
  obtain ⟨d, -, rfl⟩ := List.mem_map.mp h
  exact replChar_not_bad d

theorem mem_trimJs (l : Str) (c : Char) (h : c ∈ trimJs l) : c ∈ l := by
  unfold trimJs at h
  have h1 : c ∈ List.dropWhile isJsSpace l :=
    (List.rdropWhile_prefix isJsSpace (List.dropWhile isJsSpace l)).sublist.subset h
  exact (List.dropWhile_suffix isJsSpace).sublist.subset h1

theorem trimJs_trimJs (l : Str) : trimJs (trimJs l) = trimJs l := by
  unfold trimJs
  set u := List.dropWhile isJsSpace l with hu
  have hfixu : List.dropWhile isJsSpace u = u := by
    rw [hu]; exact List.dropWhile_idempotent _ _
  have h1 : List.dropWhile isJsSpace (List.rdropWhile isJsSpace u) =
      List.rdropWhile isJsSpace u := by
    cases hv : List.rdropWhile isJsSpace u with
    | nil => simp
    | cons c cs =>
      have hpre : (c :: cs) <+: u := by
        rw [← hv]; exact List.rdropWhile_prefix isJsSpace u
      obtain ⟨t, ht⟩ := hpre
      have hu_eq : u = c :: (cs ++ t) := by rw [← ht]; simp
      rw [hu_eq, List.dropWhile_cons] at hfixu
      by_cases hc : isJsSpace c = true
      · rw [if_pos hc] at hfixu
        have hlen := congrArg List.length hfixu
        have hle : (List.dropWhile isJsSpace (cs ++ t)).length ≤ (cs ++ t).length :=
          List.Sublist.length_le (List.IsSuffix.sublist (List.dropWhile_suffix isJsSpace))
        simp only [List.length_cons] at hlen
        omega
      · rw [List.dropWhile_cons, if_neg hc]
  rw [h1, List.rdropWhile_idempotent]

theorem sanitize_step_fixed (fb l : Str)
    (hbad : ∀ c ∈ fb, isBadFileChar c = false)
    (htrim : trimJs fb = fb) (hne : fb.isEmpty = false) :
    ((if (trimJs (l.map replChar)).isEmpty then fb else trimJs (l.map replChar)).map replChar =
        (if (trimJs (l.map replChar)).isEmpty then fb else trimJs (l.map replChar))) ∧
      (trimJs (if (trimJs (l.map replChar)).isEmpty then fb else trimJs (l.map replChar)) =
        (if (trimJs (l.map replChar)).isEmpty then fb else trimJs (l.map replChar))) ∧
      ((if (trimJs (l.map replChar)).isEmpty then fb else trimJs (l.map replChar)).isEmpty =
        false) := by
  by_cases h : (trimJs (l.map replChar)).isEmpty = true
  · rw [if_pos h]
    exact ⟨map_replChar_fix fb hbad, htrim, hne⟩
  · rw [if_neg h]
    refine ⟨?_, trimJs_trimJs _, Bool.eq_false_iff.mpr h⟩
    apply map_replChar_fix
    intro c hc
    exact mem_map_replChar_not_bad _ _ (mem_trimJs _ _ hc)

/-- C9: the filename sanitization used by the delivery step (mapping the
characters `< > : " / \ | ? *` to `_`, trimming, with fallback `document`;
and the data-URL variant with fallback `document.pdf`) is idempotent:
sanitizing an already-sanitized name yields the same name. -/
theorem c9_sanitize_idempotent (nameStr : Str) :
    sanitizeName (sanitizeName nameStr) = sanitizeName nameStr ∧
      sanitizeNameData (sanitizeNameData nameStr) = sanitizeNameData nameStr := by
  constructor
  · obtain ⟨h1, h2, h3⟩ :=
      sanitize_step_fixed (sl "document") nameStr (by decide) (by decide) (by decide)
    unfold sanitizeName
    rw [h1, h2, h3]
    simp
  · obtain ⟨h1, h2, h3⟩ :=
      sanitize_step_fixed (sl "document.pdf") nameStr (by decide) (by decide) (by decide)
    unfold sanitizeNameData
    rw [h1, h2, h3]
    simp

/-- C1 counterexample: an upload requested with resource type raw whose
store-reported delivery URL contains the image segment at two overlapping
positions still carries the image segment in the returned delivery URL,
because `String.prototype.replace` rewrites only the first occurrence. -/
theorem c1_counterexample :
    (uploadToCloudinary rawUploadOptions true (.ok storeRespDoubleImg)).1 =
        .ok (fixRawUrl (some (sl "raw")) storeRespDoubleImg) ∧
      containsSub imgSeg (fixRawUrl (some (sl "raw")) storeRespDoubleImg).secure_url = true := by
  exact ⟨rfl, by decide⟩

/-- C1 (amended): for every upload whose intended resource type is raw
(Document), if the store-returned delivery URL contains the image-delivery
segment at most once, then the URL in the result returned by
`uploadToCloudinary` does not contain the image-delivery segment.  (The
rewrite replaces only the first occurrence, so the bound on occurrences is
required.) -/
theorem c1_raw_url_amended (opts : UploadOptions) (r r' : StoreResult)
    (hraw : opts.resource_type = some (sl "raw"))
    (honce : occCount imgSeg r.secure_url ≤ 1)
    (hres : (uploadToCloudinary opts true (.ok r)).1 = .ok r') :
    containsSub imgSeg r'.secure_url = false := by
  have hr' : r' = fixRawUrl opts.resource_type r := (Except.ok.inj hres).symm
  rw [hr']
  unfold fixRawUrl
  rw [hraw]
  rw [if_pos (show (some (sl "raw") == some (sl "raw") ||
    r.resource_type == sl "raw") = true by simp)]
  by_cases hc : (!r.secure_url.isEmpty && containsSub imgSeg r.secure_url) = true
  · rw [if_pos hc]
    exact replaceFirst_img_no_contains _ honce
  · rw [if_neg hc]
    by_cases hcc : containsSub imgSeg r.secure_url = true
    · exfalso
      apply hc
      rw [hcc, Bool.and_true, Bool.not_eq_true']
      cases hnil : r.secure_url with
      | nil =>
        rw [hnil] at hcc
        exact absurd hcc (by decide)
      | cons x xs => rfl
    · exact Bool.eq_false_iff.mpr hcc

/-- C1 witness: a concrete raw upload with a single image-segment
occurrence ends with a delivery URL free of the image segment. -/
theorem c1_raw_url_witness :
    containsSub imgSeg
      (fixRawUrl rawUploadOptions.resource_type storeRespSingleImg).secure_url = false :=
  c1_raw_url_amended rawUploadOptions storeRespSingleImg
    (fixRawUrl rawUploadOptions.resource_type storeRespSingleImg) rfl (by decide) rfl

/-- C6: `uploadToCloudinary` removes the staged temporary file on every
exit path — on success before returning the result and on store failure
before the error is propagated — and the store error is propagated, not
swallowed. -/
theorem c6_temp_cleanup (opts : UploadOptions) (store : Except Str StoreResult) :
    ((uploadToCloudinary opts true store).2 = false) ∧
      (∀ e, store = .error e →
        (uploadToCloudinary opts true store).1 = .error (.store e)) ∧
      (∀ r, store = .ok r →
        (uploadToCloudinary opts true store).1 = .ok (fixRawUrl opts.resource_type r)) := by
  cases store with
  | error e =>
    refine ⟨rfl, ?_, ?_⟩
    · intro e' he
      cases he
      rfl
    · intro r hr
      cases hr
  | ok r =>
    refine ⟨rfl, ?_, ?_⟩
    · intro e he
      cases he
    · intro r' hr
      cases hr
      rfl

/-- C6 witness: concrete store failure and store success both leave no
staged file, and the failure is propagated. -/
theorem c6_temp_cleanup_witness :
    (uploadToCloudinary noticeUploadOptions true (.error (sl "store down"))).2 = false ∧
      (uploadToCloudinary noticeUploadOptions true (.error (sl "store down"))).1 =
        .error (.store (sl "store down")) ∧
      (uploadToCloudinary noticeUploadOptions true (.ok storeRespSingleImg)).1 =
        .ok (fixRawUrl noticeUploadOptions.resource_type storeRespSingleImg) :=
  ⟨(c6_temp_cleanup noticeUploadOptions _).1,
   (c6_temp_cleanup noticeUploadOptions _).2.1 _ rfl,
   (c6_temp_cleanup noticeUploadOptions _).2.2 _ rfl⟩

/-- C3 counterexample: the PDF uploads made by the notice controller call
`uploadToCloudinary(req.file.path)` with no options, so the effective
resource type is `auto` and the image-only transform options are present in
the store call — although the spec's classifier maps `application/pdf` to
`Document`. -/
theorem c3_counterexample :
    specResourceTypeClassifier (sl "application/pdf") = ResourceType.document ∧
      (buildBaseConfig noticeUploadOptions).resource_type = sl "auto" ∧
      (buildBaseConfig noticeUploadOptions).quality = some (sl "auto") ∧
      (buildBaseConfig noticeUploadOptions).fetch_format = some (sl "auto") := by
  exact ⟨by decide, by decide, by decide, by decide⟩

/-- C3 (amended): the image-only transform options are attached exactly
when the effective resource type is not `'raw'`: they are present for the
gallery image upload and absent (left to the caller's options) when
`resource_type` is `'raw'`; but the notice-controller PDF uploads pass no
options, so their effective resource type is `auto` and the options are
present in that store call. -/
theorem c3_transform_options_amended (opts : UploadOptions) :
    ((buildBaseConfig opts).resource_type ≠ sl "raw" →
      (buildBaseConfig opts).quality = some (sl "auto") ∧
        (buildBaseConfig opts).fetch_format = some (sl "auto")) ∧
    ((buildBaseConfig opts).resource_type = sl "raw" →
      (buildBaseConfig opts).quality = opts.quality ∧
        (buildBaseConfig opts).fetch_format = opts.fetch_format) ∧
    ((buildBaseConfig galleryUploadOptions).resource_type = sl "image" ∧
      (buildBaseConfig galleryUploadOptions).quality = some (sl "auto")) ∧
    ((buildBaseConfig noticeUploadOptions).resource_type = sl "auto" ∧
      (buildBaseConfig noticeUploadOptions).quality = some (sl "auto")) := by
  have hrt : (buildBaseConfig opts).resource_type = opts.resource_type.getD (sl "auto") := by
    unfold buildBaseConfig
    dsimp only
    split <;> rfl
  refine ⟨?_, ?_, by decide, by decide⟩
  · intro hne
    rw [hrt] at hne
    unfold buildBaseConfig
    dsimp only
    rw [if_pos hne]
    exact ⟨rfl, rfl⟩
  · intro heq
    rw [hrt] at heq
    unfold buildBaseConfig
    dsimp only
    rw [if_neg (fun hn => hn heq)]
    exact ⟨rfl, rfl⟩

/-- C3 witness: the gallery image upload carries the transform options and
a raw upload with no caller-passed options carries none. -/
theorem c3_transform_options_witness :
    ((buildBaseConfig galleryUploadOptions).quality = some (sl "auto") ∧
      (buildBaseConfig galleryUploadOptions).fetch_format = some (sl "auto")) ∧
    ((buildBaseConfig rawUploadOptions).quality = rawUploadOptions.quality ∧
      (buildBaseConfig rawUploadOptions).fetch_format = rawUploadOptions.fetch_format) :=
  ⟨(c3_transform_options_amended galleryUploadOptions).1 (by decide),
   (c3_transform_options_amended rawUploadOptions).2.1 (by decide)⟩

theorem downloadFromUrl_requests (pf : PdfFile) (resp : Except Unit HttpResponse) :
    (downloadFromUrl pf resp).requests = [urlFetchRequest pf] := by
  unfold downloadFromUrl
  cases resp with
  | error e => rfl
  | ok r =>
    dsimp only
    split
    · rfl
    · split
      · rfl
      · split <;> rfl

theorem downloadFromServer_requests (apiBase : Option Str) (pf : PdfFile)
    (resp : Except Unit HttpResponse) :
    (downloadFromServer apiBase pf resp).requests = [serverFetchRequest apiBase pf] := by
  unfold downloadFromServer
  cases resp with
  | error e => rfl
  | ok r =>
    dsimp only
    split
    · rfl
    · split
      · rfl
      · split <;> rfl

theorem downloadFromUrl_err_ret (pf : PdfFile) (resp : Except Unit HttpResponse) :
    (downloadFromUrl pf resp).err.isSome = true → (downloadFromUrl pf resp).ret = false := by
  unfold downloadFromUrl
  cases resp with
  | error e => intro _; rfl
  | ok r =>
    dsimp only
    split
    · intro _; rfl
    · split
      · intro _; rfl
      · split
        · intro h; exact absurd h (by simp)
        · intro _; rfl

theorem downloadFromServer_err_ret (apiBase : Option Str) (pf : PdfFile)
    (resp : Except Unit HttpResponse) :
    (downloadFromServer apiBase pf resp).err.isSome = true →
      (downloadFromServer apiBase pf resp).ret = false := by
  unfold downloadFromServer
  cases resp with
  | error e => intro _; rfl
  | ok r =>
    dsimp only
    split
    · intro _; rfl
    · split
      · intro _; rfl
      · split
        · intro h; exact absurd h (by simp)
        · intro _; rfl

/-- C2: resolution in `PDFHandler.download` follows the fixed order
Remote (`url`) → Legacy (`filename`/`fileId`) → Inline (`data`), first match
wins: a present `url` selects the remote strategy regardless of the other
fields, and a descriptor with none of the three populated fails. -/
theorem c2_resolution_order (pf : PdfFile) (apiBase : Option Str)
    (resp : Except Unit HttpResponse) :
    (truthy pf.url = true → download (some pf) apiBase resp = downloadFromUrl pf resp) ∧
    (truthy pf.url = false → (truthy pf.filename = true ∨ truthy pf.fileId = true) →
      download (some pf) apiBase resp = downloadFromServer apiBase pf resp) ∧
    (truthy pf.url = false → truthy pf.filename = false → truthy pf.fileId = false →
      truthy pf.data = true → download (some pf) apiBase resp = downloadFromDataURL pf) ∧
    (truthy pf.url = false → truthy pf.filename = false → truthy pf.fileId = false →
      truthy pf.data = false →
      (download (some pf) apiBase resp).ret = false ∧
        (download (some pf) apiBase resp).err = some DlErr.invalidDescriptor) := by
  refine ⟨?_, ?_, ?_, ?_⟩
  · intro h
    simp [download, h]
  · intro h hleg
    have hh : (truthy pf.filename || truthy pf.fileId) = true := by
      rcases hleg with h1 | h1 <;> simp [h1]
    simp [download, h, hh]
  · intro h1 h2 h3 h4
    simp [download, h1, h2, h3, h4]
  · intro h1 h2 h3 h4
    simp [download, h1, h2, h3, h4]

/-- C2 witness: concrete descriptors exercise each branch; in particular a
descriptor carrying both a url and stale legacy fields resolves remotely. -/
theorem c2_resolution_order_witness :
    download (some remoteLegacyFile) none (.error ()) =
        downloadFromUrl remoteLegacyFile (.error ()) ∧
      download (some legacyBothFile) none (.error ()) =
        downloadFromServer none legacyBothFile (.error ()) ∧
      download (some inlineFile) none (.error ()) = downloadFromDataURL inlineFile ∧
      (download (some emptyFile) none (.error ())).ret = false :=
  ⟨(c2_resolution_order remoteLegacyFile none _).1 (by decide),
   (c2_resolution_order legacyBothFile none _).2.1 (by decide) (Or.inl (by decide)),
   (c2_resolution_order inlineFile none _).2.2.1 (by decide) (by decide) (by decide)
     (by decide),
   ((c2_resolution_order emptyFile none _).2.2.2 (by decide) (by decide) (by decide)
     (by decide)).1⟩

/-- C4 counterexample: for the descriptor `{fileName: "old.pdf", fileId: "123"}`
the legacy URL actually built is `<base>/files/old.pdf`, not
`<base>/files/123` — `filename` takes priority over `fileId` in
`${base}/files/${pdfFile.filename || pdfFile.fileId}`. -/
theorem c4_counterexample :
    serverUrlOf (some (sl "B")) legacyBothFile = sl "B/files/old.pdf" ∧
      ¬ serverUrlOf (some (sl "B")) legacyBothFile = sl "B/files/123" := by
  exact ⟨by decide, by decide⟩

/-- C4 (amended): for the descriptor `{fileName: "old.pdf", fileId: "123"}`
with no url the resolver selects the legacy server strategy, and the
retrieval URL it builds is exactly `<base>/files/old.pdf` (the `fileName`
wins over the `fileId`). -/
theorem c4_legacy_url_amended (apiBase : Option Str) (resp : Except Unit HttpResponse) :
    download (some legacyBothFile) apiBase resp =
        downloadFromServer apiBase legacyBothFile resp ∧
      serverUrlOf apiBase legacyBothFile = apiBaseEff apiBase ++ sl "/files/old.pdf" ∧
      (serverFetchRequest apiBase legacyBothFile).url =
        apiBaseEff apiBase ++ sl "/files/old.pdf" := by
  have h2 : serverUrlOf apiBase legacyBothFile = apiBaseEff apiBase ++ sl "/files/old.pdf" := by
    unfold serverUrlOf
    rw [List.append_assoc]
    congr 1
  exact ⟨rfl, h2, h2⟩

/-- C7: each of `_downloadFromUrl` and `_downloadFromServer` issues exactly
one GET with credentials omitted (no retry), and on a non-2xx status the
download fails with an error carrying the status code and no transient
delivery handle is created. -/
theorem c7_single_fetch_failure (pf : PdfFile) (apiBase : Option Str)
    (resp : Except Unit HttpResponse) :
    ((downloadFromUrl pf resp).requests = [urlFetchRequest pf] ∧
      (urlFetchRequest pf).credentials = sl "omit" ∧
      (urlFetchRequest pf).method = sl "GET") ∧
    ((downloadFromServer apiBase pf resp).requests = [serverFetchRequest apiBase pf] ∧
      (serverFetchRequest apiBase pf).credentials = sl "omit" ∧
      (serverFetchRequest apiBase pf).method = sl "GET") ∧
    (∀ r, resp = .ok r → respOk r = false →
      (downloadFromUrl pf resp).ret = false ∧
        (downloadFromUrl pf resp).err = some (.httpError r.status) ∧
        (downloadFromUrl pf resp).delivered = [] ∧
        (downloadFromServer apiBase pf resp).ret = false ∧
        (downloadFromServer apiBase pf resp).err = some (.httpError r.status) ∧
        (downloadFromServer apiBase pf resp).delivered = []) := by
  refine ⟨⟨downloadFromUrl_requests pf resp, rfl, rfl⟩,
    ⟨downloadFromServer_requests apiBase pf resp, rfl, rfl⟩, ?_⟩
  intro r hr hok
  subst hr
  simp [downloadFromUrl, downloadFromServer, hok]

/-- C7 witness: a 404 response makes both fetch paths fail with the status
code, create no delivery handle, and the single request omits credentials. -/
theorem c7_single_fetch_failure_witness :
    (downloadFromUrl docFile (.ok notFoundResp)).ret = false ∧
      (downloadFromUrl docFile (.ok notFoundResp)).err = some (.httpError 404) ∧
      (downloadFromUrl docFile (.ok notFoundResp)).delivered = [] ∧
      (downloadFromServer none legacyBothFile (.ok notFoundResp)).err =
        some (.httpError 404) ∧
      (downloadFromUrl docFile (.ok notFoundResp)).requests = [urlFetchRequest docFile] :=
  ⟨((c7_single_fetch_failure docFile none _).2.2 notFoundResp rfl (by decide)).1,
   ((c7_single_fetch_failure docFile none _).2.2 notFoundResp rfl (by decide)).2.1,
   ((c7_single_fetch_failure docFile none _).2.2 notFoundResp rfl (by decide)).2.2.1,
   ((c7_single_fetch_failure legacyBothFile none _).2.2 notFoundResp rfl
     (by decide)).2.2.2.2.1,
   (c7_single_fetch_failure docFile none (.ok notFoundResp)).1.1⟩

/-- C8: a fetch that succeeds with a zero-length body fails with the
empty-payload error on both fetch paths, and the blob-download routine is
not invoked (no delivery handle). -/
theorem c8_empty_payload (pf : PdfFile) (apiBase : Option Str) (r : HttpResponse)
    (hok : respOk r = true) (hempty : r.body = []) :
    (downloadFromUrl pf (.ok r)).ret = false ∧
      (downloadFromUrl pf (.ok r)).err = some DlErr.emptyBody ∧
      (downloadFromUrl pf (.ok r)).delivered = [] ∧
      (downloadFromServer apiBase pf (.ok r)).ret = false ∧
      (downloadFromServer apiBase pf (.ok r)).err = some DlErr.emptyBody ∧
      (downloadFromServer apiBase pf (.ok r)).delivered = [] := by
  have hblob : (blobOfResponse r).data.isEmpty = true := by
    simp [blobOfResponse, hempty]
  simp [downloadFromUrl, downloadFromServer, hok, hblob]

/-- C8 witness: a 200 response with an empty body fails with the
empty-payload error and delivers nothing. -/
theorem c8_empty_payload_witness :
    (downloadFromUrl docFile (.ok emptyBodyResp)).err = some DlErr.emptyBody ∧
      (downloadFromUrl docFile (.ok emptyBodyResp)).delivered = [] ∧
      (downloadFromServer none legacyBothFile (.ok emptyBodyResp)).err =
        some DlErr.emptyBody :=
  ⟨(c8_empty_payload docFile none emptyBodyResp (by decide) rfl).2.1,
   (c8_empty_payload docFile none emptyBodyResp (by decide) rfl).2.2.1,
   (c8_empty_payload legacyBothFile none emptyBodyResp (by decide) rfl).2.2.2.2.1⟩

theorem dl_success_parts (r : HttpResponse) (filename : Str) (hbody : r.body ≠ []) :
    ∃ d, downloadBlob (normalizeBlob true (blobOfResponse r)) filename = .ok d ∧
      d.blob.data = r.body ∧
      d.blob.type = (if r.contentType.getD [] == sl "application/pdf" ||
            r.contentType.getD [] == sl "application/octet-stream" ||
            (r.contentType.getD []).isEmpty
        then r.contentType.getD [] else sl "application/pdf") := by
  have hdata : (normalizeBlob true (blobOfResponse r)).data = r.body := by
    unfold normalizeBlob
    split <;> rfl
  have hne : (normalizeBlob true (blobOfResponse r)).data.isEmpty = false := by
    rw [hdata]
    cases hb : r.body with
    | nil => exact absurd hb hbody
    | cons x xs => rfl
  refine ⟨{ blob := normalizeBlob true (blobOfResponse r),
            filename := if hasExtRegex (sanitizeName filename) then sanitizeName filename
              else sanitizeName filename ++
                extFromType (normalizeBlob true (blobOfResponse r)).type }, ?_, hdata, ?_⟩
  · unfold downloadBlob
    rw [if_neg (by simp [hne])]
  · by_cases hx : (r.contentType.getD [] == sl "application/pdf" ||
        r.contentType.getD [] == sl "application/octet-stream" ||
        (r.contentType.getD []).isEmpty) = true
    · simp [normalizeBlob, blobOfResponse, hx]
    · have hx' := Bool.eq_false_iff.mpr hx
      simp [normalizeBlob, blobOfResponse, hx']

/-- C5 counterexample: with the expected type document and the reported
content type the generic placeholder `application/octet-stream`, the
delivered payload keeps the placeholder type — the code reconciles the MIME
type only when the reported type is some other concrete type, not when it
is a generic/empty placeholder. -/
theorem c5_counterexample :
    expectPdfOf docFile = true ∧
      ((downloadFromUrl docFile (.ok octetResp)).delivered.map fun d => d.blob.type) =
        [sl "application/octet-stream"] ∧
      ¬ sl "application/octet-stream" = sl "application/pdf" := by
  exact ⟨by decide, by decide, by decide⟩

/-- C5 (amended): on the read path with expected type document and a
successful non-empty fetch, a mismatching PDF signature only sets the
non-fatal warning and delivery still proceeds; and the MIME type of the
delivered payload is reconciled to `application/pdf` exactly when the
reported content type is none of `application/pdf`,
`application/octet-stream`, or empty — generic/empty placeholder types are
kept as reported. -/
theorem c5_validation_amended (pf : PdfFile) (apiBase : Option Str) (r : HttpResponse)
    (hok : respOk r = true) (hbody : r.body ≠ []) (hexp : expectPdfOf pf = true) :
    ((downloadFromUrl pf (.ok r)).ret = true ∧
      (downloadFromUrl pf (.ok r)).warned = !(pdfMagic r.body) ∧
      ∃ d, (downloadFromUrl pf (.ok r)).delivered = [d] ∧ d.blob.data = r.body ∧
        d.blob.type = (if r.contentType.getD [] == sl "application/pdf" ||
              r.contentType.getD [] == sl "application/octet-stream" ||
              (r.contentType.getD []).isEmpty
          then r.contentType.getD [] else sl "application/pdf")) ∧
    ((downloadFromServer apiBase pf (.ok r)).ret = true ∧
      (downloadFromServer apiBase pf (.ok r)).warned = !(pdfMagic r.body) ∧
      ∃ d, (downloadFromServer apiBase pf (.ok r)).delivered = [d] ∧ d.blob.data = r.body ∧
        d.blob.type = (if r.contentType.getD [] == sl "application/pdf" ||
              r.contentType.getD [] == sl "application/octet-stream" ||
              (r.contentType.getD []).isEmpty
          then r.contentType.getD [] else sl "application/pdf")) := by
  obtain ⟨d, hd, hdata, htype⟩ := dl_success_parts r (getFilename (some pf)) hbody
  have hnb' : r.body.isEmpty = false := by
    cases hb : r.body with
    | nil => exact absurd hb hbody
    | cons x xs => rfl
  have hbd : (blobOfResponse r).data = r.body := rfl
  have hurl : downloadFromUrl pf (.ok r) =
      { ret := true, requests := [urlFetchRequest pf], delivered := [d],
        warned := !(pdfMagic r.body) } := by
    unfold downloadFromUrl
    simp [hexp, hok, hnb', hbd, hbody, hd]
  have hsrv : downloadFromServer apiBase pf (.ok r) =
      { ret := true, requests := [serverFetchRequest apiBase pf], delivered := [d],
        warned := !(pdfMagic r.body) } := by
    unfold downloadFromServer
    simp [hexp, hok, hnb', hbd, hbody, hd]
  rw [hurl, hsrv]
  exact ⟨⟨rfl, rfl, d, rfl, hdata, htype⟩, ⟨rfl, rfl, d, rfl, hdata, htype⟩⟩

/-- C5 witness: a successful fetch of non-PDF-signature bytes with a
mismatching concrete content type is delivered with the warning set and the
type reconciled to `application/pdf`. -/
theorem c5_validation_witness :
    (downloadFromUrl docFile
        (.ok { status := 200, contentType := some (sl "text/html"),
               body := [1, 2, 3] })).ret = true ∧
      (downloadFromUrl docFile
        (.ok { status := 200, contentType := some (sl "text/html"),
               body := [1, 2, 3] })).warned = true ∧
      ∃ d, (downloadFromUrl docFile
          (.ok { status := 200, contentType := some (sl "text/html"),
                 body := [1, 2, 3] })).delivered = [d] ∧
        d.blob.data = [1, 2, 3] ∧ d.blob.type = sl "application/pdf" := by
  obtain ⟨h1, h2, d, h3, h4, h5⟩ :=
    (c5_validation_amended docFile none
      { status := 200, contentType := some (sl "text/html"), body := [1, 2, 3] }
      (by decide) (by decide) (by decide)).1
  exact ⟨h1, by rw [h2]; decide, d, h3, h4, by rw [h5]; decide⟩

theorem downloadFromDataURL_err (pf : PdfFile) : (downloadFromDataURL pf).err = none := rfl

/-- C10: the public entry points `download`, `view` and `print` are total
at the interface: a null descriptor and a descriptor with none of the
recognized fields yield `false`, and every caught internal failure yields
`false` rather than a propagated exception. -/
theorem c10_total_interface (pf : PdfFile) (apiBase : Option Str)
    (resp : Except Unit HttpResponse) (oT oW : Bool) :
    (download none apiBase resp).ret = false ∧
    (view none apiBase oT).1 = false ∧
    print none apiBase oT oW = false ∧
    (noFields pf = true →
      (download (some pf) apiBase resp).ret = false ∧
        (view (some pf) apiBase oT).1 = false ∧
        print (some pf) apiBase oT oW = false) ∧
    ((download (some pf) apiBase resp).err.isSome = true →
      (download (some pf) apiBase resp).ret = false) := by
  refine ⟨rfl, rfl, rfl, ?_, ?_⟩
  · intro h
    simp only [noFields, Bool.not_eq_true', Bool.or_eq_false_iff] at h
    obtain ⟨⟨⟨h1, h2⟩, h3⟩, h4⟩ := h
    refine ⟨?_, ?_, ?_⟩ <;> simp [download, view, print, h1, h2, h3, h4]
  · unfold download
    dsimp only
    split
    · exact downloadFromUrl_err_ret pf resp
    · split
      · exact downloadFromServer_err_ret apiBase pf resp
      · split
        · intro h
          rw [downloadFromDataURL_err] at h
          exact absurd h (by simp)
        · intro _
          rfl

/-- C10 witness: the empty descriptor yields `false` from all three entry
points, and a failing download (404) yields `false`, not an exception. -/
theorem c10_total_interface_witness :
    (download (some emptyFile) none (.error ())).ret = false ∧
      (view (some emptyFile) none false).1 = false ∧
      print (some emptyFile) none false true = false ∧
      (download (some docFile) none (.ok notFoundResp)).ret = false :=
  ⟨((c10_total_interface emptyFile none (.error ()) false true).2.2.2.1 (by decide)).1,
   ((c10_total_interface emptyFile none (.error ()) false true).2.2.2.1 (by decide)).2.1,
   ((c10_total_interface emptyFile none (.error ()) false true).2.2.2.1 (by decide)).2.2,
   (c10_total_interface docFile none (.ok notFoundResp) false true).2.2.2.2 (by decide)⟩

end JVF
